import Mathlib

/-!
Verification development for the KIWI audio/video generation pipeline.

Durations are modelled as rationals (seconds, millisecond-precision values
such as 8.47 s are exact rationals).  Python dictionaries keyed by strings
are modelled as association lists, dictionary update as a key-overwriting
insertion.  The storyboard agent, the state manager and the conversation
machinery are embedded from the code excerpts in
`src/KIWI-Video/docs/TECHNICAL_DOCUMENTATION.md`; parts of the pipeline whose
source is not in the repository snapshot are modelled from the specification
and marked as such in their doc comments.
-/

namespace KIWI

/-- Audio metadata produced by the VoiceActor phase for one scene: the
measured duration together with the audio and ASR file paths, as in the
`audio_metadata` mapping handed to the Storyboard agent. -/
structure AudioMeta where
  duration : ℚ
  audio_path : String
  asr_path : String
  deriving Repr, DecidableEq

/-- A shot's time window `[start_time, end_time)` relative to its scene. -/
structure Timing where
  start_time : ℚ
  end_time : ℚ
  deriving Repr, DecidableEq

/-- One shot of a scene, as produced by the storyboard agent. -/
structure Shot where
  shot_id : String
  shot_description : String
  duration : ℚ
  timing : Timing
  deriving Repr, DecidableEq

/-- One scene of the annotated script.  `duration` starts as the planned
estimate and is overwritten with the measured audio duration by the
retiming step; `shots` and `total_duration` are filled in by the shot
breakdown. -/
structure Scene where
  scene_id : String
  scene_description : String
  voice_over_text : String
  duration : ℚ
  total_duration : ℚ
  shots : List Shot
  deriving Repr, DecidableEq

/-- From the Storyboard agent `_execute_workflow`: if the scene's id occurs
in the audio metadata, the scene's duration is replaced by the measured
audio duration; otherwise the scene is left untouched. -/
def applyActualDuration (audio_metadata : List (String × AudioMeta)) (scene : Scene) : Scene :=
  match audio_metadata.lookup scene.scene_id with
  | some meta => { scene with duration := meta.duration }
  | none => scene

/-- Zero-padded three-digit rendering of a shot index, as in the
`f"{scene_id}_shot_{idx:03d}"` format of `_normalize_shot_ids`. -/
def pad3 (n : Nat) : String :=
  if n < 10 then "00" ++ toString n
  else if n < 100 then "0" ++ toString n
  else toString n

/-- Renumbering helper for `_normalize_shot_ids`: assign canonical ids
`sceneId_shot_NNN` starting from index `i`. -/
def renumber_shots (scene_id : String) : Nat → List Shot → List Shot
  | _, [] => []
  | i, sh :: rest =>
    { sh with shot_id := scene_id ++ "_shot_" ++ pad3 i } :: renumber_shots scene_id (i + 1) rest

/-- From `_normalize_shot_ids`: shot ids are renumbered to the canonical
`sceneId_shot_NNN` sequence, starting at 001, regardless of the ids the
provider returned. -/
def normalize_shot_ids (shots : List Shot) (scene_id : String) : List Shot :=
  renumber_shots scene_id 1 shots

/-- Modelled from the spec: windows are recomputed by cumulative sum
starting at the given origin — each shot's window is
`[t, t + duration)` where `t` is the sum of the durations before it.
The storyboard agent source `kiwi_video/agents/storyboard.py` is not in the
repository snapshot; only its documentation excerpt is. -/
def assignWindows : ℚ → List Shot → List Shot
  | _, [] => []
  | t, sh :: rest =>
    { sh with timing := ⟨t, t + sh.duration⟩ } :: assignWindows (t + sh.duration) rest

/-- Modelled from the spec: `_create_default_shots` is called by
`_create_shot_breakdown` when the provider returns no shots, but its body is
not in the repository snapshot; the spec says the fallback is a single
full-scene shot spanning `[0, actual)`. -/
def create_default_shots (scene : Scene) : List Shot :=
  [{ shot_id := scene.scene_id ++ "_shot_001",
     shot_description := scene.scene_description,
     duration := scene.duration,
     timing := ⟨0, scene.duration⟩ }]

/-- The 10 ms tolerance of the shot partition invariant, in seconds. -/
def tolerance : ℚ := 1 / 100

/-- Modelled from the spec: the timing reconciliation of §4.2.  The empty
branch and the id renumbering follow the `_create_shot_breakdown` /
`_normalize_shot_ids` excerpts in the documentation; the tolerance test, the
proportional rescaling by `actual / proposed_sum`, the cumulative-sum window
assignment and the single-shot fallback when rescaling is impossible are
modelled from the spec (§4.2, §7) because the storyboard agent source is
not in the repository snapshot. -/
def reconcile_shots (scene : Scene) (proposed : List Shot) : List Shot :=
  if proposed.isEmpty then create_default_shots scene
  else
    let s : ℚ := (proposed.map Shot.duration).sum
    if |s - scene.duration| ≤ tolerance then
      assignWindows 0 (normalize_shot_ids proposed scene.scene_id)
    else if 0 < s then
      assignWindows 0 (normalize_shot_ids
        (proposed.map fun sh => { sh with duration := sh.duration * (scene.duration / s) })
        scene.scene_id)
    else
      create_default_shots scene

/-- From `_create_shot_breakdown`: plan the shots for one scene (the
provider response is `none` on provider error, `some []` on an empty but
well-formed response), fall back to the default single shot when the
response is empty, install the shots on the scene and record the scene's
duration as `total_duration`. -/
def create_shot_breakdown (scene : Scene) (response : Option (List Shot)) : Scene :=
  let shots := reconcile_shots scene (response.getD [])
  { scene with shots := shots, total_duration := scene.duration }

/-- From the Storyboard agent `_execute_workflow`: every scene first has its
planned duration replaced by the measured audio duration (when audio
metadata for it exists) and is then given its shot breakdown; the planner is
invoked on the retimed scene. -/
def storyboard_workflow (audio_metadata : List (String × AudioMeta))
    (planner : Scene → Option (List Shot)) (scenes : List Scene) : List Scene :=
  scenes.map fun sc =>
    let sc' := applyActualDuration audio_metadata sc
    create_shot_breakdown sc' (planner sc')

/-- Key-overwriting insertion into a string-keyed association map: the model
of a Python dict assignment `d[k] = v`. -/
def setEntry {β : Type} (s : List (String × β)) (k : String) (v : β) : List (String × β) :=
  (k, v) :: s.filter fun p => !(p.1 == k)

/-- Modelled from the spec: one State Store mutation sets one key of the
materialized snapshot to a value (the documentation's `update_state` applies
such key/value updates); the store's own source is not in the repository
snapshot, only the `StateManager` documentation excerpt. -/
structure Mutation where
  key : String
  value : String
  deriving Repr, DecidableEq

/-- A materialized snapshot: a string-keyed map. -/
abbrev Snapshot : Type := List (String × String)

/-- Apply one mutation to a snapshot. -/
def applyMutation (s : Snapshot) (m : Mutation) : Snapshot :=
  setEntry s m.key m.value

/-- Modelled from the spec: the State Store holds the mutable materialized
snapshot plus the append-only audit history. -/
structure StateStore where
  snapshot : Snapshot
  history : List Mutation
  deriving Repr, DecidableEq

/-- A fresh store: empty snapshot, empty history. -/
def StateStore.empty : StateStore :=
  { snapshot := [], history := [] }

/-- Modelled from the spec: `commit` applies the mutation to the snapshot
and appends exactly one immutable audit record before returning. -/
def commit (st : StateStore) (m : Mutation) : StateStore :=
  { snapshot := applyMutation st.snapshot m, history := st.history ++ [m] }

/-- Commit a list of mutations in order. -/
def commitAll (st : StateStore) (ms : List Mutation) : StateStore :=
  ms.foldl commit st

/-- Modelled from the spec: replaying audit records folds them, in commit
order, over a snapshot. -/
def replay (ms : List Mutation) (s : Snapshot) : Snapshot :=
  ms.foldl applyMutation s

/-- The keys written by a list of mutations. -/
def writtenKeys (ms : List Mutation) : List String :=
  ms.map Mutation.key

/-- The five pipeline phases of the orchestrator workflow. -/
inductive Phase
  | story_loader
  | voice_actor
  | storyboard
  | film_crew
  | video_processor
  deriving Repr, DecidableEq, Fintype

/-- Phase status as recorded by the pipeline. -/
inductive PhaseStatus
  | pending
  | running
  | completed
  | failed
  deriving Repr, DecidableEq, Fintype

/-- The pipeline phases in dependency order. -/
def phaseOrder : List Phase :=
  [.story_loader, .voice_actor, .storyboard, .film_crew, .video_processor]

/-- Each phase depends on its predecessor in the linear workflow chain. -/
def deps : Phase → List Phase
  | .story_loader => []
  | .voice_actor => [.story_loader]
  | .storyboard => [.voice_actor]
  | .film_crew => [.storyboard]
  | .video_processor => [.film_crew]

/-- Build a persisted status table from five statuses, one per phase. -/
def mkPersisted (s1 s2 s3 s4 s5 : PhaseStatus) : Phase → PhaseStatus
  | .story_loader => s1
  | .voice_actor => s2
  | .storyboard => s3
  | .film_crew => s4
  | .video_processor => s5

/-- Modelled from the spec: at resume, each phase's status is reconstructed
from the persisted record only, and a phase recorded `running` at crash
time is demoted to `failed` (no in-flight work is assumed resumable).  The
documentation's `recover_project` loads the state file but elides the retry
logic itself. -/
def resumeStatus (persisted : Phase → PhaseStatus) (p : Phase) : PhaseStatus :=
  if persisted p = .running then .failed else persisted p

/-- Modelled from the spec: the phases scheduled for (re)execution after
resume — those not recorded `completed`, in pipeline order. -/
def toRerun (persisted : Phase → PhaseStatus) : List Phase :=
  phaseOrder.filter fun p => resumeStatus persisted p != .completed

/-- One phase record of `project_state.json`: status plus the bookkeeping
fields the StateManager methods touch. -/
structure PhaseRecord where
  status : String
  started_at : Option String := none
  completed_at : Option String := none
  failed_at : Option String := none
  error : Option String := none
  result : Option String := none
  deriving Repr, DecidableEq

/-- The StateManager's state: overall project status, current phase, and
the per-phase records (a string-keyed map). -/
structure ManagerState where
  status : String
  current_phase : String
  phases : List (String × PhaseRecord)
  deriving Repr, DecidableEq

/-- Python's `state["phases"][name].update({...})`: transform the record
stored under `k`, leaving every other entry untouched. -/
def updateRecord (phases : List (String × PhaseRecord)) (k : String)
    (f : PhaseRecord → PhaseRecord) : List (String × PhaseRecord) :=
  phases.map fun p => if p.1 = k then (p.1, f p.2) else p

/-- From `StateManager.start_phase`: install a fresh record for the phase
(status `processing`) and point `current_phase` at it.  Wall-clock
timestamps are passed in as `now`. -/
def start_phase (st : ManagerState) (phase_name now : String) : ManagerState :=
  { st with
    current_phase := phase_name,
    phases := setEntry st.phases phase_name { status := "processing", started_at := some now } }

/-- From `StateManager.complete_phase`: mark the phase `completed`, record
the completion time and the result payload; nothing else changes. -/
def complete_phase (st : ManagerState) (phase_name result now : String) : ManagerState :=
  { st with
    phases := updateRecord st.phases phase_name fun r =>
      { r with status := "completed", completed_at := some now, result := some result } }

/-- From `StateManager.fail_phase`: mark the phase `failed` with the error,
and mark the whole project `failed`; no other record is touched. -/
def fail_phase (st : ManagerState) (phase_name error now : String) : ManagerState :=
  { st with
    status := "failed",
    phases := updateRecord st.phases phase_name fun r =>
      { r with status := "failed", failed_at := some now, error := some error } }

/-- The storyboard phase run against one scene: build the shot breakdown
(total, no error path — an empty provider response takes the fallback) and
record the phase as completed via `complete_phase`, never via
`fail_phase`. -/
def run_storyboard (st : ManagerState) (scene : Scene) (response : Option (List Shot))
    (now : String) : ManagerState × Scene :=
  let scene' := create_shot_breakdown scene response
  (complete_phase st "storyboard" (toString scene'.shots.length) now, scene')

/-- From `sendMessage` in `src/front/src/app/dashboard/page.tsx`: the body
POSTed to `/api/conversation/message`. -/
structure MessageRequest where
  conversation_id : Option String
  message : Option String
  audio_data : Option String
  confirm_generate : Bool
  deriving Repr, DecidableEq

/-- From `sendMessage`: an ordinary chat turn's request always carries
`confirm_generate := false`. -/
def sendMessageRequest (cid text audio : Option String) : MessageRequest :=
  { conversation_id := cid, message := text, audio_data := audio, confirm_generate := false }

/-- Modelled from the spec: the Clarification Dialogue's conversation
state — the accumulated intent map, the ready flag, and the project linked
at hand-off (generation has been started exactly when this is set).  The
backend conversation service is not in the repository snapshot; only the
dashboard client is. -/
structure ConversationState where
  intent : List (String × String)
  ready : Bool
  linked_project : Option String
  deriving Repr, DecidableEq

/-- Modelled from the spec: merge one turn's extracted fields into the
accumulated intent — new keys added, existing keys overwritten by the
newest non-empty value, and empty values never erase anything. -/
def mergeIntent (intent updates : List (String × String)) : List (String × String) :=
  updates.foldl (fun acc kv => if kv.2 == "" then acc else setEntry acc kv.1 kv.2) intent

/-- The required intent fields: topic, rough length, tone (§4.4). -/
def requiredIntentFields : List String :=
  ["topic", "length", "tone"]

/-- Modelled from the spec: the readiness policy — all required intent
fields are present. -/
def intentReady (intent : List (String × String)) : Bool :=
  requiredIntentFields.all fun k => (intent.lookup k).isSome

/-- Modelled from the spec: one ordinary inbound message (the client's
`confirm_generate = false` request): merge the turn's fields and recompute
`ready`.  It never links a project — that is, it never starts generation —
and a message arriving after hand-off leaves the closed conversation
unchanged (the spec rejects it with `ConversationClosed`). -/
def handleMessage (st : ConversationState) (updates : List (String × String)) : ConversationState :=
  if st.linked_project.isSome then st
  else
    let i := mergeIntent st.intent updates
    { st with intent := i, ready := intentReady i }

/-- Fold a whole conversation of ordinary turns. -/
def handleTurns (st : ConversationState) (turns : List (List (String × String))) :
    ConversationState :=
  turns.foldl handleMessage st

/-- Modelled from the spec: the explicit confirmation operation — link the
conversation to a freshly created project and hand the accumulated intent
to the pipeline's `start`. -/
def confirmHandoff (st : ConversationState) (project_id : String) :
    ConversationState × List (String × String) :=
  ({ st with linked_project := some project_id }, st.intent)

/-- Modelled from the spec: the per-(project, phase) exclusive launch
token — `advance` records the `pending → running` transition atomically,
and only a caller whose compare-and-set succeeds launches the phase. -/
def tryAcquire (s : PhaseStatus) : PhaseStatus × Bool :=
  match s with
  | .pending => (.running, true)
  | s => (s, false)

/-- Two callers race one `advance` each on the same (project, phase) slot;
`aFirst` picks the interleaving of the two atomic transitions.  Returns the
final status and each caller's launch decision (caller A first). -/
def raceAdvance (s : PhaseStatus) (aFirst : Bool) : PhaseStatus × Bool × Bool :=
  let r1 := tryAcquire s
  let r2 := tryAcquire r1.1
  (r2.1, if aFirst then (r1.2, r2.2) else (r2.2, r1.2))

/-- Concrete audio asset used in example instantiations: measured duration
8.47 s. -/
def exAudioMeta : AudioMeta :=
  { duration := 847 / 100, audio_path := "audio/scene_001.mp3", asr_path := "asr/scene_001.json" }

/-- Concrete audio metadata map holding an asset for scene_001 only. -/
def exAudioMetadata : List (String × AudioMeta) :=
  [("scene_001", exAudioMeta)]

/-- Concrete scene with a planned (estimated) duration of 8 s. -/
def exScene : Scene :=
  { scene_id := "scene_001", scene_description := "skyline", voice_over_text := "welcome",
    duration := 8, total_duration := 0, shots := [] }

/-- Concrete scene whose id has no audio asset in `exAudioMetadata`. -/
def exSceneNoAudio : Scene :=
  { scene_id := "scene_002", scene_description := "harbor", voice_over_text := "next",
    duration := 5, total_duration := 0, shots := [] }

/-- Concrete scene with an actual duration of 8.1 s, for the rescaling
example. -/
def exScene81 : Scene :=
  { scene_id := "scene_001", scene_description := "skyline", voice_over_text := "welcome",
    duration := 81 / 10, total_duration := 0, shots := [] }

/-- A provider-proposed shot with the given rough duration. -/
def exShot (d : ℚ) : Shot :=
  { shot_id := "x", shot_description := "cut", duration := d, timing := ⟨0, 0⟩ }

/-- A planner that always reports a provider error. -/
def exPlanner : Scene → Option (List Shot) :=
  fun _ => none

/-- Concrete manager state: story_loader completed, storyboard processing. -/
def exManager : ManagerState :=
  { status := "processing", current_phase := "storyboard",
    phases :=
      [("story_loader",
        { status := "completed", started_at := some "t0", completed_at := some "t1",
          result := some "scenes:2" }),
       ("storyboard", { status := "processing", started_at := some "t2" })] }

/-- First clarification turn: topic only. -/
def turn1 : List (String × String) :=
  [("topic", "space")]

/-- Second clarification turn: completes the required fields. -/
def turn2 : List (String × String) :=
  [("length", "30s"), ("tone", "epic")]

/-- Third clarification turn, after `ready` has already flipped. -/
def turn3 : List (String × String) :=
  [("style", "cinematic")]

/-- A fresh conversation. -/
def conv0 : ConversationState :=
  { intent := [], ready := false, linked_project := none }

end KIWI

namespace KIWI

theorem renumber_shots_map_duration (sid : String) (i : Nat) (l : List Shot) :
    (renumber_shots sid i l).map Shot.duration = l.map Shot.duration := by
  induction l generalizing i with
  | nil => rfl
  | cons sh rest ih => simp [renumber_shots, ih]

theorem assignWindows_map_duration (t : ℚ) (l : List Shot) :
    (assignWindows t l).map Shot.duration = l.map Shot.duration := by
  induction l generalizing t with
  | nil => rfl
  | cons sh rest ih => simp [assignWindows, ih]

theorem assignWindows_window (t : ℚ) (l : List Shot) :
    ∀ sh ∈ assignWindows t l, sh.timing.end_time = sh.timing.start_time + sh.duration := by
  induction l generalizing t with
  | nil => intro sh h; simp [assignWindows] at h
  | cons a rest ih =>
    intro sh h
    simp only [assignWindows, List.mem_cons] at h
    rcases h with rfl | h
    · simp
    · exact ih _ sh h

theorem assignWindows_head_start (t : ℚ) (l : List Shot) :
    ∀ sh ∈ (assignWindows t l).head?, sh.timing.start_time = t := by
  cases l with
  | nil => intro sh h; simp [assignWindows] at h
  | cons a rest =>
    intro sh h
    simp only [assignWindows, List.head?_cons, Option.mem_def, Option.some.injEq] at h
    rw [← h]

theorem assignWindows_chain (t : ℚ) (l : List Shot) :
    List.Chain' (fun a b => a.timing.end_time = b.timing.start_time) (assignWindows t l) := by
  induction l generalizing t with
  | nil => simp [assignWindows]
  | cons a rest ih =>
    rw [assignWindows, List.chain'_cons']
    refine ⟨?_, ih _⟩
    intro y hy
    have hs := assignWindows_head_start (t + a.duration) rest y hy
    simp [hs]

theorem renumber_shots_duration_nonneg {l : List Shot} (h : ∀ x ∈ l, 0 ≤ x.duration)
    (sid : String) (i : Nat) : ∀ y ∈ renumber_shots sid i l, 0 ≤ y.duration := by
  induction l generalizing i with
  | nil => intro y hy; simp [renumber_shots] at hy
  | cons a rest ih =>
    intro y hy
    simp only [renumber_shots, List.mem_cons] at hy
    rcases hy with rfl | hy
    · simpa using h a (by simp)
    · exact ih (fun x hx => h x (by simp [hx])) _ y hy

theorem assignWindows_duration_nonneg {l : List Shot} (h : ∀ x ∈ l, 0 ≤ x.duration)
    (t : ℚ) : ∀ y ∈ assignWindows t l, 0 ≤ y.duration := by
  induction l generalizing t with
  | nil => intro y hy; simp [assignWindows] at hy
  | cons a rest ih =>
    intro y hy
    simp only [assignWindows, List.mem_cons] at hy
    rcases hy with rfl | hy
    · simpa using h a (by simp)
    · exact ih (fun x hx => h x (by simp [hx])) _ y hy

theorem assignWindows_ne_nil {l : List Shot} (h : l ≠ []) (t : ℚ) :
    assignWindows t l ≠ [] := by
  cases l with
  | nil => exact absurd rfl h
  | cons a rest => simp [assignWindows]

theorem renumber_shots_ne_nil {l : List Shot} (h : l ≠ []) (sid : String) (i : Nat) :
    renumber_shots sid i l ≠ [] := by
  cases l with
  | nil => exact absurd rfl h
  | cons a rest => simp [renumber_shots]

/-- C1: after the retiming step, a scene that has an audio asset carries the
asset's measured duration exactly; the shot breakdown consumed downstream
reads that duration (both `duration` and `total_duration`), and the
storyboard workflow routes every scene through exactly this
retime-then-breakdown composition. -/
theorem retiming_sets_actual_duration (am : List (String × AudioMeta))
    (planner : Scene → Option (List Shot)) (scene : Scene) (meta : AudioMeta)
    (scenes : List Scene) (h : am.lookup scene.scene_id = some meta) :
    (applyActualDuration am scene).duration = meta.duration ∧
    (create_shot_breakdown (applyActualDuration am scene)
        (planner (applyActualDuration am scene))).duration = meta.duration ∧
    (create_shot_breakdown (applyActualDuration am scene)
        (planner (applyActualDuration am scene))).total_duration = meta.duration ∧
    storyboard_workflow am planner scenes =
      scenes.map fun sc =>
        create_shot_breakdown (applyActualDuration am sc)
          (planner (applyActualDuration am sc)) := by
  have h1 : applyActualDuration am scene = { scene with duration := meta.duration } := by
    rw [applyActualDuration, h]
  refine ⟨?_, ?_, ?_, rfl⟩ <;> simp [h1, create_shot_breakdown]

/-- Witness for C1 at a concrete scene and audio asset. -/
theorem retiming_sets_actual_duration_witness :
    exAudioMetadata.lookup exScene.scene_id = some exAudioMeta ∧
    (applyActualDuration exAudioMetadata exScene).duration = exAudioMeta.duration ∧
    (create_shot_breakdown (applyActualDuration exAudioMetadata exScene)
        (exPlanner (applyActualDuration exAudioMetadata exScene))).duration = 847 / 100 := by
  have h := retiming_sets_actual_duration exAudioMetadata exPlanner exScene exAudioMeta [] rfl
  exact ⟨rfl, h.1, h.2.1⟩

/-- C10: the duration-replacement step leaves a scene whose id is absent
from the audio metadata completely unchanged, and overwrites exactly the
duration field of a scene whose id is present. -/
theorem retiming_frame_effect (am : List (String × AudioMeta)) (scene : Scene) :
    (am.lookup scene.scene_id = none → applyActualDuration am scene = scene) ∧
    ∀ meta, am.lookup scene.scene_id = some meta →
      applyActualDuration am scene = { scene with duration := meta.duration } := by
  constructor
  · intro h; rw [applyActualDuration, h]
  · intro meta h; rw [applyActualDuration, h]

/-- Witness for C10: a scene without metadata is untouched; one with
metadata changes only its duration. -/
theorem retiming_frame_effect_witness :
    exAudioMetadata.lookup exSceneNoAudio.scene_id = none ∧
    applyActualDuration exAudioMetadata exSceneNoAudio = exSceneNoAudio ∧
    applyActualDuration exAudioMetadata exScene = { exScene with duration := 847 / 100 } := by
  refine ⟨rfl, (retiming_frame_effect exAudioMetadata exSceneNoAudio).1 rfl, ?_⟩
  exact (retiming_frame_effect exAudioMetadata exScene).2 exAudioMeta rfl

theorem lookup_updateRecord (l : List (String × PhaseRecord)) (n k : String)
    (f : PhaseRecord → PhaseRecord) :
    (updateRecord l n f).lookup k = if k = n then (l.lookup k).map f else l.lookup k := by
  induction l with
  | nil => simp [updateRecord, List.lookup]
  | cons p rest ih =>
    rcases p with ⟨pk, pr⟩
    rw [updateRecord, List.map_cons]
    by_cases hpk : pk = n
    · subst hpk
      rw [if_pos rfl]
      by_cases hk : k = pk
      · subst hk
        simp [List.lookup]
      · have hb : (k == pk) = false := by simp [hk]
        rw [List.lookup, List.lookup, hb]
        simpa [updateRecord, hk] using ih
    · rw [if_neg (by simpa using hpk)]
      by_cases hk : k = pk
      · subst hk
        have hb : (k == k) = true := by simp
        rw [List.lookup, List.lookup, hb, if_neg hpk]
      · have hb : (k == pk) = false := by simp [hk]
        rw [List.lookup, List.lookup, hb]
        simpa [updateRecord] using ih

/-- C6: `fail_phase` marks the named phase's record failed and the overall
project status failed, and leaves every other phase record — in particular
every completed one — byte-for-byte unchanged. -/
theorem fail_phase_marks_failed (st : ManagerState) (name err now : String) :
    (fail_phase st name err now).status = "failed" ∧
    (∀ r, st.phases.lookup name = some r →
      (fail_phase st name err now).phases.lookup name =
        some { r with status := "failed", failed_at := some now, error := some err }) ∧
    (∀ k, k ≠ name → (fail_phase st name err now).phases.lookup k = st.phases.lookup k) ∧
    (fail_phase st name err now).current_phase = st.current_phase := by
  refine ⟨rfl, ?_, ?_, rfl⟩
  · intro r hr
    simp [fail_phase, lookup_updateRecord, hr]
  · intro k hk
    simp [fail_phase, lookup_updateRecord, hk]

/-- Witness for C6: failing the storyboard phase marks it and the project
failed while the completed story_loader record survives unchanged. -/
theorem fail_phase_marks_failed_witness :
    (fail_phase exManager "storyboard" "veo quota" "t3").status = "failed" ∧
    (fail_phase exManager "storyboard" "veo quota" "t3").phases.lookup "storyboard" =
      some { status := "failed", started_at := some "t2", failed_at := some "t3",
             error := some "veo quota" } ∧
    (fail_phase exManager "storyboard" "veo quota" "t3").phases.lookup "story_loader" =
      exManager.phases.lookup "story_loader" := by
  have h := fail_phase_marks_failed exManager "storyboard" "veo quota" "t3"
  exact ⟨h.1, h.2.1 _ rfl, h.2.2.1 "story_loader" (by decide)⟩

/-- C7: an empty shot-planning provider result — a provider error (`none`)
or a well-formed empty list — yields exactly one shot spanning
`[0, actual)`, and the storyboard run records phase completion, not
failure. -/
theorem empty_shot_plan_fallback (st : ManagerState) (scene : Scene)
    (response : Option (List Shot)) (now : String)
    (h : response = none ∨ response = some []) :
    (create_shot_breakdown scene response).shots =
      [{ shot_id := scene.scene_id ++ "_shot_001",
         shot_description := scene.scene_description,
         duration := scene.duration,
         timing := ⟨0, scene.duration⟩ }] ∧
    run_storyboard st scene response now =
      (complete_phase st "storyboard" (toString 1) now, create_shot_breakdown scene response) := by
  have hresp : response.getD [] = [] := by rcases h with rfl | rfl <;> rfl
  have hsh : (create_shot_breakdown scene response).shots = create_default_shots scene := by
    simp [create_shot_breakdown, reconcile_shots, hresp]
  constructor
  · rw [hsh]; rfl
  · simp [run_storyboard, hsh, create_default_shots]

/-- Witness for C7: a provider error on the concrete 8.1 s scene yields the
single full-scene shot and a completed (not failed) phase record. -/
theorem empty_shot_plan_fallback_witness :
    (create_shot_breakdown exScene81 none).shots =
      [{ shot_id := "scene_001_shot_001", shot_description := "skyline",
         duration := 81 / 10, timing := ⟨0, 81 / 10⟩ }] ∧
    (run_storyboard exManager exScene81 none "t3").1.status = exManager.status := by
  have h := empty_shot_plan_fallback exManager exScene81 none "t3" (Or.inl rfl)
  refine ⟨h.1, ?_⟩
  rw [h.2]
  rfl

/-- C9: in either interleaving of two concurrent `advance` attempts on the
same (project, phase) slot, at most one caller's compare-and-set succeeds;
from `pending`, exactly one succeeds and the slot ends `running`. -/
theorem advance_race_exclusive (s : PhaseStatus) (aFirst : Bool) :
    (¬ ((raceAdvance s aFirst).2.1 = true ∧ (raceAdvance s aFirst).2.2 = true)) ∧
    (s = .pending →
      (raceAdvance s aFirst).2.1 ≠ (raceAdvance s aFirst).2.2 ∧
      (raceAdvance s aFirst).1 = .running) := by
  cases s <;> cases aFirst <;> simp [raceAdvance, tryAcquire]

/-- Witness for C9: from `pending`, the first caller wins and the second
loses in one interleaving, and vice versa in the other. -/
theorem advance_race_exclusive_witness :
    ((raceAdvance .pending true).2.1 ≠ (raceAdvance .pending true).2.2 ∧
      (raceAdvance .pending true).1 = .running) ∧
    (raceAdvance .pending true).2 = (true, false) ∧
    (raceAdvance .pending false).2 = (false, true) :=
  ⟨(advance_race_exclusive .pending true).2 rfl, rfl, rfl⟩


theorem handleMessage_linked (st : ConversationState) (u : List (String × String)) :
    (handleMessage st u).linked_project = st.linked_project := by
  rw [handleMessage]
  split <;> rfl

theorem handleTurns_linked (turns : List (List (String × String))) (st : ConversationState) :
    (handleTurns st turns).linked_project = st.linked_project := by
  induction turns generalizing st with
  | nil => rfl
  | cons u rest ih =>
    exact (ih (handleMessage st u)).trans (handleMessage_linked st u)

theorem handleTurns_intent (turns : List (List (String × String))) (st : ConversationState)
    (h : st.linked_project = none) :
    (handleTurns st turns).intent = turns.foldl mergeIntent st.intent := by
  induction turns generalizing st with
  | nil => rfl
  | cons u rest ih =>
    have hm : handleMessage st u =
        { st with intent := mergeIntent st.intent u,
                  ready := intentReady (mergeIntent st.intent u) } := by
      rw [handleMessage, if_neg (by simp [h])]
    show (handleTurns (handleMessage st u) rest).intent =
      rest.foldl mergeIntent (mergeIntent st.intent u)
    rw [hm, ih _ (by simp [h])]

/-- C8: ordinary inbound messages always carry `confirm_generate = false`
and never link a project (never start generation), no matter how many turns
arrive or when `ready` flips; the explicit confirmation is what links the
project, and it hands off the intent merged from every turn. -/
theorem clarification_gating (turns : List (List (String × String)))
    (st : ConversationState) (pid : String) (h : st.linked_project = none) :
    (∀ cid text audio, (sendMessageRequest cid text audio).confirm_generate = false) ∧
    (handleTurns st turns).linked_project = none ∧
    confirmHandoff (handleTurns st turns) pid =
      ({ handleTurns st turns with linked_project := some pid },
        turns.foldl mergeIntent st.intent) := by
  refine ⟨fun _ _ _ => rfl, (handleTurns_linked turns st).trans h, ?_⟩
  rw [confirmHandoff]
  exact congrArg₂ Prod.mk rfl (handleTurns_intent turns st h)

/-- Witness for C8: the three-turn scenario — `ready` flips after turn 2,
not turn 3; no project is linked by any of the three ordinary turns; the
confirmation links the project and hands off the intent merged from all
three turns, including turn 3's field. -/
theorem clarification_gating_witness :
    conv0.linked_project = none ∧
    ((∀ cid text audio, (sendMessageRequest cid text audio).confirm_generate = false) ∧
      (handleTurns conv0 [turn1, turn2, turn3]).linked_project = none ∧
      confirmHandoff (handleTurns conv0 [turn1, turn2, turn3]) "project_1" =
        ({ handleTurns conv0 [turn1, turn2, turn3] with linked_project := some "project_1" },
          [turn1, turn2, turn3].foldl mergeIntent conv0.intent)) ∧
    (handleTurns conv0 [turn1]).ready = false ∧
    (handleTurns conv0 [turn1, turn2]).ready = true ∧
    (handleTurns conv0 [turn1, turn2, turn3]).ready = true ∧
    (confirmHandoff (handleTurns conv0 [turn1, turn2, turn3]) "project_1").2.lookup "style" =
      some "cinematic" ∧
    (confirmHandoff (handleTurns conv0 [turn1, turn2, turn3]) "project_1").2.lookup "topic" =
      some "space" :=
  ⟨rfl, clarification_gating [turn1, turn2, turn3] conv0 "project_1" rfl,
    rfl, rfl, rfl, rfl, rfl⟩


theorem commitAll_history (ms : List Mutation) (st : StateStore) :
    (commitAll st ms).history = st.history ++ ms := by
  induction ms generalizing st with
  | nil => simp [commitAll]
  | cons m rest ih =>
    show (commitAll (commit st m) rest).history = st.history ++ m :: rest
    rw [ih, commit]
    simp

theorem commitAll_snapshot (ms : List Mutation) (st : StateStore) :
    (commitAll st ms).snapshot = replay ms st.snapshot := by
  induction ms generalizing st with
  | nil => rfl
  | cons m rest ih =>
    show (commitAll (commit st m) rest).snapshot = replay rest (applyMutation st.snapshot m)
    rw [ih]
    rfl

theorem replay_decomp (ms : List Mutation) (s : Snapshot) :
    replay ms s =
      replay ms [] ++ s.filter fun p => !((writtenKeys ms).contains p.1) := by
  induction ms generalizing s with
  | nil => simp [replay, writtenKeys]
  | cons m rest ih =>
    have happ : applyMutation s m =
        [(m.key, m.value)] ++ s.filter fun p => !(p.1 == m.key) := rfl
    calc replay (m :: rest) s
        = replay rest (applyMutation s m) := rfl
      _ = replay rest [] ++ (applyMutation s m).filter
            (fun p => !((writtenKeys rest).contains p.1)) := ih _
      _ = replay rest [] ++
            (([(m.key, m.value)].filter fun p => !((writtenKeys rest).contains p.1)) ++
              ((s.filter fun p => !(p.1 == m.key)).filter
                fun p => !((writtenKeys rest).contains p.1))) := by
            rw [happ, List.filter_append]
      _ = (replay rest [] ++
            ([(m.key, m.value)].filter fun p => !((writtenKeys rest).contains p.1))) ++
            s.filter (fun p => !((writtenKeys (m :: rest)).contains p.1)) := by
            rw [List.filter_filter, ← List.append_assoc]
            congr 1
            refine List.filter_congr ?_
            intro a _
            show (!((writtenKeys rest).contains a.1) && !(a.1 == m.key)) =
              !((writtenKeys (m :: rest)).contains a.1)
            rw [show writtenKeys (m :: rest) = m.key :: writtenKeys rest from rfl,
              List.contains_cons]
            cases h1 : a.1 == m.key <;> cases h2 : (writtenKeys rest).contains a.1 <;> rfl
      _ = replay (m :: rest) [] ++
            s.filter (fun p => !((writtenKeys (m :: rest)).contains p.1)) := by
            congr 1
            rw [show replay (m :: rest) [] = replay rest [(m.key, m.value)] from rfl,
              ih [(m.key, m.value)]]

theorem mem_replay_nil_key (ms : List Mutation) :
    ∀ p ∈ replay ms [], p.1 ∈ writtenKeys ms := by
  induction ms with
  | nil => intro p hp; simp [replay] at hp
  | cons m rest ih =>
    intro p hp
    rw [show replay (m :: rest) [] = replay rest [(m.key, m.value)] from rfl,
      replay_decomp] at hp
    rw [show writtenKeys (m :: rest) = m.key :: writtenKeys rest from rfl]
    rcases List.mem_append.1 hp with h1 | h2
    · exact List.mem_cons_of_mem _ (ih p h1)
    · have hmem := (List.mem_filter.1 h2).1
      simp only [List.mem_singleton] at hmem
      subst hmem
      exact List.mem_cons_self _ _

theorem replay_idem (ms : List Mutation) (s : Snapshot) :
    replay ms (replay ms s) = replay ms s := by
  have hnil : (replay ms []).filter (fun p => !((writtenKeys ms).contains p.1)) = [] := by
    refine List.filter_eq_nil_iff.2 ?_
    intro p hp
    simpa using mem_replay_nil_key ms p hp
  have hff : ((s.filter fun p => !((writtenKeys ms).contains p.1)).filter
      fun p => !((writtenKeys ms).contains p.1)) =
      s.filter fun p => !((writtenKeys ms).contains p.1) := by
    rw [List.filter_filter]
    exact List.filter_congr fun a _ => Bool.and_self _
  calc replay ms (replay ms s)
      = replay ms [] ++ (replay ms s).filter
          (fun p => !((writtenKeys ms).contains p.1)) := replay_decomp ms _
    _ = replay ms [] ++
          ((replay ms []).filter (fun p => !((writtenKeys ms).contains p.1)) ++
            (s.filter fun p => !((writtenKeys ms).contains p.1)).filter
              (fun p => !((writtenKeys ms).contains p.1))) := by
          rw [replay_decomp ms s, List.filter_append]
    _ = replay ms [] ++ s.filter (fun p => !((writtenKeys ms).contains p.1)) := by
          rw [hnil, hff, List.nil_append]
    _ = replay ms s := (replay_decomp ms s).symm

/-- C4: each commit appends exactly one immutable audit record, the audit
order of a project's history is its commit order, replaying the full
history from an empty snapshot reproduces the live materialized snapshot,
and replay is idempotent. -/
theorem state_store_replay (ms : List Mutation) (s : Snapshot) :
    (∀ st m, (commit st m).history = st.history ++ [m]) ∧
    (commitAll StateStore.empty ms).history = ms ∧
    replay (commitAll StateStore.empty ms).history [] =
      (commitAll StateStore.empty ms).snapshot ∧
    replay ms (replay ms s) = replay ms s := by
  refine ⟨fun st m => rfl, ?_, ?_, replay_idem ms s⟩
  · rw [commitAll_history]
    rfl
  · rw [commitAll_history, commitAll_snapshot]
    rfl


set_option maxHeartbeats 2000000 in
theorem resume_aux : ∀ s1 s2 s3 s4 s5 : PhaseStatus,
    (∀ p, mkPersisted s1 s2 s3 s4 s5 p = .running →
      resumeStatus (mkPersisted s1 s2 s3 s4 s5) p = .failed ∧
      p ∈ toRerun (mkPersisted s1 s2 s3 s4 s5)) ∧
    (∀ p, mkPersisted s1 s2 s3 s4 s5 p = .completed →
      resumeStatus (mkPersisted s1 s2 s3 s4 s5) p = .completed ∧
      p ∉ toRerun (mkPersisted s1 s2 s3 s4 s5)) ∧
    (∀ r, (toRerun (mkPersisted s1 s2 s3 s4 s5)).head? = some r →
      ∀ q ∈ deps r, resumeStatus (mkPersisted s1 s2 s3 s4 s5) q = .completed) := by
  decide

/-- C5: resume reconstructs the pipeline purely from the persisted store —
a phase recorded `running` at crash time is treated as `failed` and is in
the rerun set; a phase recorded `completed` stays `completed` and is never
re-executed; the first phase to be re-run has all of its dependencies
`completed` (it restarts from its last completed dependency); and the
reconstruction is a function of the store contents only. -/
theorem resume_reconstruction (s1 s2 s3 s4 s5 : PhaseStatus) :
    (∀ p, mkPersisted s1 s2 s3 s4 s5 p = .running →
      resumeStatus (mkPersisted s1 s2 s3 s4 s5) p = .failed ∧
      p ∈ toRerun (mkPersisted s1 s2 s3 s4 s5)) ∧
    (∀ p, mkPersisted s1 s2 s3 s4 s5 p = .completed →
      resumeStatus (mkPersisted s1 s2 s3 s4 s5) p = .completed ∧
      p ∉ toRerun (mkPersisted s1 s2 s3 s4 s5)) ∧
    (∀ r, (toRerun (mkPersisted s1 s2 s3 s4 s5)).head? = some r →
      ∀ q ∈ deps r, resumeStatus (mkPersisted s1 s2 s3 s4 s5) q = .completed) ∧
    (∀ t : Phase → PhaseStatus, (∀ p, t p = mkPersisted s1 s2 s3 s4 s5 p) →
      (∀ p, resumeStatus t p = resumeStatus (mkPersisted s1 s2 s3 s4 s5) p) ∧
      toRerun t = toRerun (mkPersisted s1 s2 s3 s4 s5)) := by
  obtain ⟨h1, h2, h3⟩ := resume_aux s1 s2 s3 s4 s5
  refine ⟨h1, h2, h3, ?_⟩
  intro t ht
  have hres : ∀ p, resumeStatus t p = resumeStatus (mkPersisted s1 s2 s3 s4 s5) p := by
    intro p
    rw [resumeStatus, resumeStatus, ht p]
  exact ⟨hres, List.filter_congr fun p _ => by rw [hres p]⟩

/-- Witness for C5: with story_loader and voice_actor completed, storyboard
running at crash time and the rest pending, resume demotes storyboard to
failed, schedules it first for re-run with its dependency completed, and
leaves the completed phases out of the rerun set. -/
theorem resume_reconstruction_witness :
    mkPersisted .completed .completed .running .pending .pending Phase.storyboard = .running ∧
    resumeStatus (mkPersisted .completed .completed .running .pending .pending)
      Phase.storyboard = .failed ∧
    Phase.storyboard ∈ toRerun (mkPersisted .completed .completed .running .pending .pending) ∧
    Phase.story_loader ∉
      toRerun (mkPersisted .completed .completed .running .pending .pending) ∧
    (toRerun (mkPersisted .completed .completed .running .pending .pending)).head? =
      some Phase.storyboard ∧
    resumeStatus (mkPersisted .completed .completed .running .pending .pending)
      Phase.voice_actor = .completed := by
  have h := resume_reconstruction .completed .completed .running .pending .pending
  exact ⟨rfl, (h.1 .storyboard rfl).1, (h.1 .storyboard rfl).2,
    (h.2.1 .story_loader rfl).2, rfl,
    h.2.2.1 .storyboard rfl .voice_actor (by simp [deps])⟩


theorem reconcile_shots_empty (scene : Scene) {proposed : List Shot}
    (he : proposed.isEmpty = true) :
    reconcile_shots scene proposed = create_default_shots scene := by
  simp [reconcile_shots, he]

theorem reconcile_shots_tol (scene : Scene) {proposed : List Shot}
    (hne : proposed.isEmpty = false)
    (ht : |(proposed.map Shot.duration).sum - scene.duration| ≤ tolerance) :
    reconcile_shots scene proposed =
      assignWindows 0 (normalize_shot_ids proposed scene.scene_id) := by
  simp only [reconcile_shots, hne, Bool.false_eq_true, if_false]
  rw [if_pos ht]

theorem reconcile_shots_rescale (scene : Scene) {proposed : List Shot}
    (hne : proposed.isEmpty = false)
    (ht : ¬ |(proposed.map Shot.duration).sum - scene.duration| ≤ tolerance)
    (hpos : 0 < (proposed.map Shot.duration).sum) :
    reconcile_shots scene proposed =
      assignWindows 0 (normalize_shot_ids
        (proposed.map fun sh =>
          { sh with duration :=
              sh.duration * (scene.duration / (proposed.map Shot.duration).sum) })
        scene.scene_id) := by
  simp only [reconcile_shots, hne, Bool.false_eq_true, if_false]
  rw [if_neg ht, if_pos hpos]

theorem reconcile_shots_fallback (scene : Scene) {proposed : List Shot}
    (hne : proposed.isEmpty = false)
    (ht : ¬ |(proposed.map Shot.duration).sum - scene.duration| ≤ tolerance)
    (hpos : ¬ 0 < (proposed.map Shot.duration).sum) :
    reconcile_shots scene proposed = create_default_shots scene := by
  simp only [reconcile_shots, hne, Bool.false_eq_true, if_false]
  rw [if_neg ht, if_neg hpos]

theorem windows_props (l : List Shot) (hl : l ≠ []) (hnn : ∀ x ∈ l, 0 ≤ x.duration) :
    assignWindows 0 l ≠ [] ∧
    (∀ sh ∈ (assignWindows 0 l).head?, sh.timing.start_time = 0) ∧
    List.Chain' (fun a b => a.timing.end_time = b.timing.start_time) (assignWindows 0 l) ∧
    ∀ sh ∈ assignWindows 0 l,
      sh.timing.end_time = sh.timing.start_time + sh.duration ∧ 0 ≤ sh.duration :=
  ⟨assignWindows_ne_nil hl 0, assignWindows_head_start 0 l, assignWindows_chain 0 l,
    fun sh hsh =>
      ⟨assignWindows_window 0 l sh hsh, assignWindows_duration_nonneg hnn 0 sh hsh⟩⟩

theorem default_shots_props (scene : Scene) (hd : 0 ≤ scene.duration) :
    create_default_shots scene ≠ [] ∧
    |((create_default_shots scene).map Shot.duration).sum - scene.duration| ≤ tolerance ∧
    (∀ sh ∈ (create_default_shots scene).head?, sh.timing.start_time = 0) ∧
    List.Chain' (fun a b => a.timing.end_time = b.timing.start_time)
      (create_default_shots scene) ∧
    ∀ sh ∈ create_default_shots scene,
      sh.timing.end_time = sh.timing.start_time + sh.duration ∧ 0 ≤ sh.duration := by
  refine ⟨by simp [create_default_shots], ?_, ?_, ?_, ?_⟩
  · simp only [create_default_shots, List.map_cons, List.map_nil, List.sum_cons,
      List.sum_nil, add_zero, sub_self, abs_zero]
    norm_num [tolerance]
  · intro sh hsh
    simp only [create_default_shots, List.head?_cons, Option.mem_def,
      Option.some.injEq] at hsh
    rw [← hsh]
  · simp [create_default_shots]
  · intro sh hsh
    simp only [create_default_shots, List.mem_singleton] at hsh
    subst hsh
    exact ⟨(zero_add _).symm, hd⟩

/-- C2: for every scene, timing reconciliation produces a non-empty shot
list whose durations sum to the scene's actual duration within the 10 ms
tolerance; the first window starts at 0, consecutive windows are contiguous
(each shot's start is the previous shot's end), and every window is
`[start, start + duration)` with non-negative duration, so windows do not
overlap. -/
theorem shot_partition_invariant (scene : Scene) (proposed : List Shot)
    (hd : 0 ≤ scene.duration)
    (hp : ∀ sh ∈ proposed, 0 ≤ sh.duration) :
    reconcile_shots scene proposed ≠ [] ∧
    |((reconcile_shots scene proposed).map Shot.duration).sum - scene.duration| ≤ tolerance ∧
    (∀ sh ∈ (reconcile_shots scene proposed).head?, sh.timing.start_time = 0) ∧
    List.Chain' (fun a b => a.timing.end_time = b.timing.start_time)
      (reconcile_shots scene proposed) ∧
    ∀ sh ∈ reconcile_shots scene proposed,
      sh.timing.end_time = sh.timing.start_time + sh.duration ∧ 0 ≤ sh.duration := by
  by_cases he : proposed.isEmpty = true
  · rw [reconcile_shots_empty scene he]
    exact default_shots_props scene hd
  · have hne : proposed.isEmpty = false := by
      cases hb : proposed.isEmpty
      · rfl
      · exact absurd hb he
    have hnil : proposed ≠ [] := by
      intro h
      rw [h] at hne
      simp at hne
    by_cases ht : |(proposed.map Shot.duration).sum - scene.duration| ≤ tolerance
    · rw [reconcile_shots_tol scene hne ht]
      obtain ⟨w1, w2, w3, w4⟩ :=
        windows_props (normalize_shot_ids proposed scene.scene_id)
          (renumber_shots_ne_nil hnil scene.scene_id 1)
          (renumber_shots_duration_nonneg hp scene.scene_id 1)
      refine ⟨w1, ?_, w2, w3, w4⟩
      rw [assignWindows_map_duration, normalize_shot_ids, renumber_shots_map_duration]
      exact ht
    · by_cases hpos : 0 < (proposed.map Shot.duration).sum
      · rw [reconcile_shots_rescale scene hne ht hpos]
        have hcnn : (0:ℚ) ≤ scene.duration / (proposed.map Shot.duration).sum :=
          div_nonneg hd hpos.le
        have hscaled : ∀ x ∈ proposed.map (fun sh =>
            { sh with duration :=
                sh.duration * (scene.duration / (proposed.map Shot.duration).sum) }),
            0 ≤ x.duration := by
          intro x hx
          obtain ⟨sh, hsh, rfl⟩ := List.mem_map.1 hx
          exact mul_nonneg (hp sh hsh) hcnn
        have hmapnil : proposed.map (fun sh =>
            { sh with duration :=
                sh.duration * (scene.duration / (proposed.map Shot.duration).sum) }) ≠ [] := by
          intro h
          exact hnil (List.map_eq_nil_iff.mp h)
        obtain ⟨w1, w2, w3, w4⟩ :=
          windows_props _ (renumber_shots_ne_nil hmapnil scene.scene_id 1)
            (renumber_shots_duration_nonneg hscaled scene.scene_id 1)
        refine ⟨w1, ?_, w2, w3, w4⟩
        rw [assignWindows_map_duration, normalize_shot_ids, renumber_shots_map_duration,
          List.map_map]
        show |(List.map (fun sh => sh.duration *
            (scene.duration / (List.map Shot.duration proposed).sum)) proposed).sum -
          scene.duration| ≤ tolerance
        rw [List.sum_map_mul_right, mul_comm,
          div_mul_cancel₀ _ (ne_of_gt hpos), sub_self, abs_zero]
        norm_num [tolerance]
      · rw [reconcile_shots_fallback scene hne ht hpos]
        exact default_shots_props scene hd

/-- Witness for C2 at a concrete scene (8 s) and a single proposed 8 s
shot. -/
theorem shot_partition_invariant_witness :
    (0:ℚ) ≤ exScene.duration ∧
    (∀ sh ∈ [exShot 8], (0:ℚ) ≤ sh.duration) ∧
    (reconcile_shots exScene [exShot 8] ≠ [] ∧
      |((reconcile_shots exScene [exShot 8]).map Shot.duration).sum - exScene.duration| ≤
        tolerance ∧
      (∀ sh ∈ (reconcile_shots exScene [exShot 8]).head?, sh.timing.start_time = 0) ∧
      List.Chain' (fun a b => a.timing.end_time = b.timing.start_time)
        (reconcile_shots exScene [exShot 8]) ∧
      ∀ sh ∈ reconcile_shots exScene [exShot 8],
        sh.timing.end_time = sh.timing.start_time + sh.duration ∧ 0 ≤ sh.duration) := by
  have h1 : (0:ℚ) ≤ exScene.duration := by norm_num [exScene]
  have h2 : ∀ sh ∈ [exShot 8], (0:ℚ) ≤ sh.duration := by
    intro sh hsh
    rcases List.mem_singleton.1 hsh with rfl
    norm_num [exShot]
  exact ⟨h1, h2, shot_partition_invariant exScene [exShot 8] h1 h2⟩

/-- C3: when the proposed durations miss the actual duration by more than
the tolerance (and their sum is positive), reconciliation rescales every
shot's duration by the factor actual / proposed_sum and recomputes the
windows by cumulative sum starting at 0. -/
theorem rescaling_reconciliation (scene : Scene) (proposed : List Shot)
    (hne : proposed.isEmpty = false)
    (ht : ¬ |(proposed.map Shot.duration).sum - scene.duration| ≤ tolerance)
    (hpos : 0 < (proposed.map Shot.duration).sum) :
    reconcile_shots scene proposed =
      assignWindows 0 (normalize_shot_ids
        (proposed.map fun sh =>
          { sh with duration :=
              sh.duration * (scene.duration / (proposed.map Shot.duration).sum) })
        scene.scene_id) ∧
    (reconcile_shots scene proposed).map Shot.duration =
      proposed.map fun sh =>
        sh.duration * (scene.duration / (proposed.map Shot.duration).sum) := by
  have h1 := reconcile_shots_rescale scene hne ht hpos
  refine ⟨h1, ?_⟩
  rw [h1, assignWindows_map_duration, normalize_shot_ids, renumber_shots_map_duration,
    List.map_map]
  rfl

/-- Witness for C3: the spec scenario — proposed shots of 3 s, 3 s, 3 s
(sum 9 s) against an actual duration of 8.1 s are rescaled to 2.7 s each
with windows [0, 2.7), [2.7, 5.4), [5.4, 8.1). -/
theorem rescaling_reconciliation_witness :
    ([exShot 3, exShot 3, exShot 3].isEmpty = false) ∧
    (¬ |(([exShot 3, exShot 3, exShot 3].map Shot.duration).sum : ℚ) - exScene81.duration| ≤
      tolerance) ∧
    (0:ℚ) < ([exShot 3, exShot 3, exShot 3].map Shot.duration).sum ∧
    (reconcile_shots exScene81 [exShot 3, exShot 3, exShot 3]).map Shot.duration =
      [exShot 3, exShot 3, exShot 3].map (fun sh =>
        sh.duration *
          (exScene81.duration / (([exShot 3, exShot 3, exShot 3].map Shot.duration).sum))) ∧
    reconcile_shots exScene81 [exShot 3, exShot 3, exShot 3] =
      [{ shot_id := "scene_001_shot_001", shot_description := "cut", duration := 27 / 10,
         timing := ⟨0, 27 / 10⟩ },
       { shot_id := "scene_001_shot_002", shot_description := "cut", duration := 27 / 10,
         timing := ⟨27 / 10, 54 / 10⟩ },
       { shot_id := "scene_001_shot_003", shot_description := "cut", duration := 27 / 10,
         timing := ⟨54 / 10, 81 / 10⟩ }] := by
  have hne : ([exShot 3, exShot 3, exShot 3].isEmpty = false) := rfl
  have ht : ¬ |(([exShot 3, exShot 3, exShot 3].map Shot.duration).sum : ℚ) -
      exScene81.duration| ≤ tolerance := by
    norm_num [exShot, exScene81, tolerance, abs_le]
  have hpos : (0:ℚ) < ([exShot 3, exShot 3, exShot 3].map Shot.duration).sum := by
    norm_num [exShot]
  refine ⟨hne, ht, hpos,
    (rescaling_reconciliation exScene81 [exShot 3, exShot 3, exShot 3] hne ht hpos).2, ?_⟩
  norm_num [reconcile_shots, exScene81, exShot, normalize_shot_ids, renumber_shots,
    assignWindows, pad3, tolerance, abs_le, Timing.mk.injEq, Shot.mk.injEq]
  exact ⟨rfl, rfl, rfl⟩

end KIWI
